import Mathlib

/-
Verification of the behavioral-tracking core of the Student Identification
System repository.

The embedding mirrors, over ℚ-valued timestamps:
  * `HandGestureDetector.update_hand_raise_count` and
    `FaceMovementDetector.update_looking_away_count`
    (gesture_detection.py) — two textually identical debounce state
    machines, embedded once as `detStep`, parameterized by their
    `(sustain_threshold, cooldown_period)` pair;
  * `FaceMovementDetector.detect_face_movement` — the attention scorer,
    with the MediaPipe face mesh and solvePnP pose solver treated as
    external collaborators whose outputs (`face_detected`, `head_pose`)
    are inputs of the embedding;
  * `BehaviorTrackingSystem._process_frame`, `_reset_statistics`,
    `_save_session_report` (behavior_tracking.py) — the per-frame session
    aggregator and report generator, with face recognition, hand
    detection, rendering and the database treated as collaborators.
-/

/-- Debounce parameters of a detector instance: `sustain` is the
`hand_raise_duration_threshold` / `looking_away_threshold` attribute
(minimum continuous-true duration), `cooldown` is `cooldown_period`. -/
structure DetParams where
  sustain : ℚ
  cooldown : ℚ
deriving DecidableEq

/-- Mutable detector state shared by `HandGestureDetector`
(`hand_raised`, `hand_raise_start_time`, `hand_raise_count`,
`last_hand_raise_time`) and `FaceMovementDetector` (`is_looking_away`,
`looking_away_start_time`, `looking_away_count`,
`last_looking_away_time`). -/
structure DetectorState where
  raw_active : Bool
  episode_start : Option ℚ
  count : ℕ
  last_confirmed : Option ℚ
deriving DecidableEq

/-- Detector state set up by the `__init__` methods. -/
def detInit : DetectorState :=
  { raw_active := false, episode_start := none, count := 0, last_confirmed := none }

/-- The cooldown test
`self.last_X_time is None or (current_time - self.last_X_time).total_seconds() >= self.cooldown_period`. -/
def cooldownOk (p : DetParams) (last : Option ℚ) (t : ℚ) : Bool :=
  match last with
  | none => true
  | some l => decide (p.cooldown ≤ t - l)

/-- One call of `update_hand_raise_count(signal)` /
`update_looking_away_count(signal)` at time `t` (the `datetime.now()`
taken inside the method).  Returns the updated state and the boolean the
method returns (`True` exactly when a new event is confirmed). -/
def detStep (p : DetParams) (s : DetectorState) (signal : Bool) (t : ℚ) :
    DetectorState × Bool :=
  if signal then
    if !s.raw_active then
      ({ s with raw_active := true, episode_start := some t }, false)
    else
      match s.episode_start with
      | none => (s, false)
      | some start =>
        if p.sustain ≤ t - start then
          if cooldownOk p s.last_confirmed t then
            ({ s with count := s.count + 1, last_confirmed := some t,
                      episode_start := none }, true)
          else (s, false)
        else (s, false)
  else
    ({ s with raw_active := false, episode_start := none }, false)

/-- Parameters of the hand-raise instance:
`hand_raise_duration_threshold = 1.0`, `cooldown_period = 3.0`. -/
def handParams : DetParams := { sustain := 1, cooldown := 3 }

/-- Parameters of the looking-away instance:
`looking_away_threshold = 2.0`, `cooldown_period = 5.0`. -/
def awayParams : DetParams := { sustain := 2, cooldown := 5 }

/-- `HandGestureDetector.update_hand_raise_count`. -/
def update_hand_raise_count (s : DetectorState) (hand_raised : Bool) (t : ℚ) :
    DetectorState × Bool :=
  detStep handParams s hand_raised t

/-- `FaceMovementDetector.update_looking_away_count`. -/
def update_looking_away_count (s : DetectorState) (looking_away : Bool) (t : ℚ) :
    DetectorState × Bool :=
  detStep awayParams s looking_away t

/-- `reset_count` of either detector class: zero the counter and clear
all debounce state. -/
def reset_count (s : DetectorState) : DetectorState :=
  { s with count := 0, raw_active := false, episode_start := none,
           last_confirmed := none }

/-- Run a detector over a sequence of calls `(signal, time)`, collecting
the boolean returned by each call. -/
def detRun (p : DetParams) (s : DetectorState) :
    List (Bool × ℚ) → DetectorState × List Bool
  | [] => (s, [])
  | c :: cs =>
    let st := detStep p s c.1 c.2
    let r := detRun p st.1 cs
    (r.1, st.2 :: r.2)

theorem detRun_nil (p : DetParams) (s : DetectorState) : detRun p s [] = (s, []) := rfl

theorem detRun_cons (p : DetParams) (s : DetectorState) (c : Bool × ℚ)
    (cs : List (Bool × ℚ)) :
    detRun p s (c :: cs) =
      ((detRun p (detStep p s c.1 c.2).1 cs).1,
        (detStep p s c.1 c.2).2 :: (detRun p (detStep p s c.1 c.2).1 cs).2) := rfl

theorem detRun_append (p : DetParams) (s : DetectorState)
    (l1 l2 : List (Bool × ℚ)) :
    detRun p s (l1 ++ l2) =
      ((detRun p (detRun p s l1).1 l2).1,
        (detRun p s l1).2 ++ (detRun p (detRun p s l1).1 l2).2) := by
  induction l1 generalizing s with
  | nil => simp [detRun]
  | cons c cs ih =>
    simp [detRun_cons, List.cons_append, ih]

theorem detRun_length (p : DetParams) (s : DetectorState) (l : List (Bool × ℚ)) :
    (detRun p s l).2.length = l.length := by
  induction l generalizing s with
  | nil => rfl
  | cons c cs ih => simp [detRun_cons, ih]

/-- The output of the call at position `pre.length` in the sequence
`pre ++ c :: rest` is the output of `detStep` from the state reached
after processing `pre`. -/
theorem detRun_output_middle (p : DetParams) (s : DetectorState)
    (pre rest : List (Bool × ℚ)) (c : Bool × ℚ) :
    (detRun p s (pre ++ c :: rest)).2[pre.length]? =
      some (detStep p (detRun p s pre).1 c.1 c.2).2 := by
  rw [detRun_append]
  rw [List.getElem?_append_right (by simp [detRun_length])]
  simp [detRun_length, detRun_cons]

/-- The raw signal of the most recent call in a processed prefix
(`false` for the empty prefix); this is what the detector's
`raw_active` flag tracks. -/
def lastSignal (l : List (Bool × ℚ)) : Bool :=
  (l.getLast?.map Prod.fst).getD false

theorem lastSignal_concat (l : List (Bool × ℚ)) (c : Bool × ℚ) :
    lastSignal (l ++ [c]) = c.1 := by
  simp [lastSignal]

/-- Invariant tying a detector state to the prefix of calls already
processed: `raw_active` equals the last raw signal, and `episode_start`,
when set, is the timestamp of the first call of the current maximal
continuous run of true raw signals. -/
def detInv (proc : List (Bool × ℚ)) (s : DetectorState) : Prop :=
  s.raw_active = lastSignal proc ∧
  ∀ e, s.episode_start = some e →
    ∃ l1 l2, proc = l1 ++ (true, e) :: l2 ∧ (∀ c ∈ l2, c.1 = true) ∧
      lastSignal l1 = false

theorem detInv_init : detInv [] detInit := by
  constructor
  · rfl
  · intro e he
    simp [detInit] at he

theorem detInv_step (p : DetParams) (proc : List (Bool × ℚ))
    (s : DetectorState) (b : Bool) (t : ℚ) (h : detInv proc s) :
    detInv (proc ++ [(b, t)]) (detStep p s b t).1 := by
  obtain ⟨hraw, hep⟩ := h
  cases b with
  | false =>
    constructor
    · simp [detStep, lastSignal_concat]
    · intro e he
      simp [detStep] at he
  | true =>
    cases hr : s.raw_active with
    | false =>
      constructor
      · simp [detStep, hr, lastSignal_concat]
      · intro e he
        simp [detStep, hr] at he
        exact ⟨proc, [], by simp [he], by simp, by rw [← hraw, hr]⟩
    | true =>
      cases hes : s.episode_start with
      | none =>
        constructor
        · simp [detStep, hr, hes, lastSignal_concat]
        · intro e he
          simp [detStep, hr, hes] at he
      | some start =>
        by_cases hsus : p.sustain ≤ t - start
        · by_cases hcd : cooldownOk p s.last_confirmed t = true
          · constructor
            · simp [detStep, hr, hes, hsus, hcd, lastSignal_concat]
            · intro e he
              simp [detStep, hr, hes, hsus, hcd] at he
          · constructor
            · simp [detStep, hr, hes, hsus, hcd, lastSignal_concat]
            · intro e he
              simp only [detStep, hr, hes, if_pos hsus] at he
              rw [if_neg hcd] at he
              obtain ⟨l1, l2, hp, hl2, hl1⟩ := hep e he
              refine ⟨l1, l2 ++ [(true, t)], ?_, ?_, hl1⟩
              · rw [hp]
                simp
              · intro c hc
                rcases List.mem_append.mp hc with h1 | h1
                · exact hl2 c h1
                · simp at h1
                  rw [h1]
        · constructor
          · simp [detStep, hr, hes, hsus, lastSignal_concat]
          · intro e he
            simp [detStep, hr, hes, hsus] at he
            obtain ⟨l1, l2, hp, hl2, hl1⟩ := hep e (by rw [hes, he])
            refine ⟨l1, l2 ++ [(true, t)], ?_, ?_, hl1⟩
            · rw [hp]
              simp
            · intro c hc
              rcases List.mem_append.mp hc with h1 | h1
              · exact hl2 c h1
              · simp at h1
                rw [h1]

theorem detInv_run (p : DetParams) :
    ∀ (tr proc : List (Bool × ℚ)) (s : DetectorState), detInv proc s →
      detInv (proc ++ tr) (detRun p s tr).1 := by
  intro tr
  induction tr with
  | nil =>
    intro proc s h
    simpa [detRun] using h
  | cons c cs ih =>
    intro proc s h
    rw [detRun_cons]
    have h1 := detInv_step p proc s c.1 c.2 h
    have h2 := ih (proc ++ [(c.1, c.2)]) (detStep p s c.1 c.2).1 h1
    simpa [List.append_assoc] using h2

/-- If a single call returns `True`, then the signal was true, an episode
was in progress (with recorded start `e`), the sustain and cooldown tests
both passed, and the state is updated accordingly. -/
theorem detStep_confirm (p : DetParams) (s : DetectorState) (b : Bool) (t : ℚ)
    (h : (detStep p s b t).2 = true) :
    b = true ∧ s.raw_active = true ∧
    ∃ e, s.episode_start = some e ∧ p.sustain ≤ t - e ∧
      cooldownOk p s.last_confirmed t = true ∧
      (detStep p s b t).1 =
        { s with count := s.count + 1, last_confirmed := some t,
                 episode_start := none } := by
  cases b with
  | false => simp [detStep] at h
  | true =>
    cases hr : s.raw_active with
    | false => simp [detStep, hr] at h
    | true =>
      cases hes : s.episode_start with
      | none => simp [detStep, hr, hes] at h
      | some start =>
        by_cases hsus : p.sustain ≤ t - start
        · by_cases hcd : cooldownOk p s.last_confirmed t = true
          · exact ⟨rfl, rfl, start, rfl, hsus, hcd,
              by simp [detStep, hr, hes, hsus, hcd]⟩
          · simp [detStep, hr, hes, hsus, hcd] at h
        · simp [detStep, hr, hes, hsus] at h

/-- C1: for every call sequence with nondecreasing timestamps
(embedding both `HandGestureDetector.update_hand_raise_count`, where
`p = handParams`, and `FaceMovementDetector.update_looking_away_count`,
where `p = awayParams`), a call at time `t` returns a confirmation only
if an episode is in progress — the processed prefix ends in a maximal
continuous run of true signals whose first call happened at some time
`e` — and `t - e ≥ sustain_threshold`; hence a call during an episode
whose elapsed time is below the sustain threshold never confirms. -/
theorem detector_confirm_requires_sustained_episode (p : DetParams)
    (pre rest : List (Bool × ℚ)) (b : Bool) (t : ℚ)
    (hmono : (pre ++ (b, t) :: rest).Pairwise (fun a c => a.2 ≤ c.2))
    (hconf : (detRun p detInit (pre ++ (b, t) :: rest)).2[pre.length]? = some true) :
    b = true ∧
    ∃ e l1 l2, pre = l1 ++ (true, e) :: l2 ∧ (∀ c ∈ l2, c.1 = true) ∧
      lastSignal l1 = false ∧ p.sustain ≤ t - e := by
  rw [detRun_output_middle] at hconf
  have hstep : (detStep p (detRun p detInit pre).1 b t).2 = true := by
    simpa using hconf
  obtain ⟨hb, hraw, e, hes, hsus, hok, hst⟩ := detStep_confirm p _ b t hstep
  have hinv : detInv pre (detRun p detInit pre).1 := by
    simpa using detInv_run p pre [] detInit detInv_init
  obtain ⟨l1, l2, hp, hl2, hl1⟩ := hinv.2 e hes
  exact ⟨hb, e, l1, l2, hp, hl2, hl1, hsus⟩

/-- Witness for C1: concrete run of the hand-raise instance in which the
call at time 1 confirms, one second after the episode began at time 0. -/
theorem detector_confirm_requires_sustained_episode_witness :
    true = true ∧
    ∃ e l1 l2, [((true : Bool), (0 : ℚ))] = l1 ++ (true, e) :: l2 ∧
      (∀ c ∈ l2, c.1 = true) ∧ lastSignal l1 = false ∧
      handParams.sustain ≤ 1 - e :=
  detector_confirm_requires_sustained_episode handParams
    [(true, 0)] [] true 1 (by simp)
    (by simp [detRun, detStep, detInit, handParams, cooldownOk])

/-- A call either leaves `last_confirmed` unchanged or stamps it with the
call's own time. -/
theorem detStep_last (p : DetParams) (s : DetectorState) (b : Bool) (t : ℚ) :
    (detStep p s b t).1.last_confirmed = s.last_confirmed ∨
    (detStep p s b t).1.last_confirmed = some t := by
  cases b with
  | false => left; simp [detStep]
  | true =>
    cases hr : s.raw_active with
    | false => left; simp [detStep, hr]
    | true =>
      cases hes : s.episode_start with
      | none => left; simp [detStep, hr, hes]
      | some start =>
        by_cases hsus : p.sustain ≤ t - start
        · by_cases hcd : cooldownOk p s.last_confirmed t = true
          · right; simp [detStep, hr, hes, hsus, hcd]
          · left; simp [detStep, hr, hes, hsus, hcd]
        · left; simp [detStep, hr, hes, hsus]

/-- Along any suffix of calls whose timestamps are nondecreasing and at
least `l`, a set `last_confirmed` stays set and never decreases. -/
theorem detRun_last_mono (p : DetParams) :
    ∀ (tr : List (Bool × ℚ)) (s : DetectorState) (l : ℚ),
      s.last_confirmed = some l → (∀ c ∈ tr, l ≤ c.2) →
      tr.Pairwise (fun a c => a.2 ≤ c.2) →
      ∃ lf, (detRun p s tr).1.last_confirmed = some lf ∧ l ≤ lf := by
  intro tr
  induction tr with
  | nil =>
    intro s l hl _ _
    exact ⟨l, by simpa [detRun] using hl, le_refl l⟩
  | cons c cs ih =>
    intro s l hl hge hpw
    rw [detRun_cons]
    rcases detStep_last p s c.1 c.2 with h | h
    · exact ih (detStep p s c.1 c.2).1 l (h.trans hl)
        (fun d hd => hge d (List.mem_cons_of_mem c hd))
        (List.pairwise_cons.mp hpw).2
    · have hc2 : l ≤ c.2 := hge c (List.mem_cons_self c cs)
      obtain ⟨lf, h1, h2⟩ := ih (detStep p s c.1 c.2).1 c.2 h
        (fun d hd => (List.pairwise_cons.mp hpw).1 d hd)
        (List.pairwise_cons.mp hpw).2
      exact ⟨lf, h1, hc2.trans h2⟩

/-- C2: in any run with nondecreasing timestamps (both detector
instances), two calls that both return a confirmation — the one at time
`t1` at position `pre.length`, the one at time `t2` at position
`(pre ++ (b1, t1) :: mid).length`, in arbitrary (possibly different)
episodes — are separated by at least `cooldown_period`. -/
theorem detector_confirmations_spaced_by_cooldown (p : DetParams)
    (pre mid rest : List (Bool × ℚ)) (b1 b2 : Bool) (t1 t2 : ℚ)
    (hmono : (pre ++ (b1, t1) :: (mid ++ (b2, t2) :: rest)).Pairwise
      (fun a c => a.2 ≤ c.2))
    (hconf1 : (detRun p detInit
      (pre ++ (b1, t1) :: (mid ++ (b2, t2) :: rest))).2[pre.length]? = some true)
    (hconf2 : (detRun p detInit
      (pre ++ (b1, t1) :: (mid ++ (b2, t2) :: rest))).2[(pre ++ (b1, t1) :: mid).length]?
      = some true) :
    p.cooldown ≤ t2 - t1 := by
  have h1 : (detStep p (detRun p detInit pre).1 b1 t1).2 = true := by
    rw [detRun_output_middle] at hconf1
    simpa using hconf1
  have htr : pre ++ (b1, t1) :: (mid ++ (b2, t2) :: rest)
      = (pre ++ (b1, t1) :: mid) ++ (b2, t2) :: rest := by
    simp
  rw [htr, detRun_output_middle] at hconf2
  have h2 : (detStep p (detRun p detInit (pre ++ (b1, t1) :: mid)).1 b2 t2).2 = true := by
    simpa using hconf2
  obtain ⟨hb1, hraw1, e1, hes1, hsus1, hok1, hst1⟩ := detStep_confirm p _ b1 t1 h1
  have hlast1 : (detStep p (detRun p detInit pre).1 b1 t1).1.last_confirmed = some t1 := by
    rw [hst1]
  have hmono2 : ((b1, t1) :: (mid ++ (b2, t2) :: rest)).Pairwise
      (fun a c => a.2 ≤ c.2) := (List.pairwise_append.mp hmono).2.1
  have hmid_ge : ∀ c ∈ mid, t1 ≤ c.2 := fun c hc =>
    (List.pairwise_cons.mp hmono2).1 c (List.mem_append.mpr (Or.inl hc))
  have ht12 : t1 ≤ t2 :=
    (List.pairwise_cons.mp hmono2).1 (b2, t2)
      (List.mem_append.mpr (Or.inr (List.mem_cons_self _ _)))
  have hmid_pw : mid.Pairwise (fun a c => a.2 ≤ c.2) :=
    (List.pairwise_append.mp (List.pairwise_cons.mp hmono2).2).1
  have hsplit : (detRun p detInit (pre ++ (b1, t1) :: mid)).1
      = (detRun p (detStep p (detRun p detInit pre).1 b1 t1).1 mid).1 := by
    rw [detRun_append, detRun_cons]
  obtain ⟨lf, hlf, hlfge⟩ := detRun_last_mono p mid
    (detStep p (detRun p detInit pre).1 b1 t1).1 t1 hlast1 hmid_ge hmid_pw
  obtain ⟨hb2, hraw2, e2, hes2, hsus2, hok2, hst2⟩ := detStep_confirm p _ b2 t2 h2
  rw [hsplit, hlf] at hok2
  have hcd : p.cooldown ≤ t2 - lf := by
    simpa [cooldownOk] using hok2
  linarith

/-- Witness for C2: the hand-raise instance confirms at time 1 and again
at time 5 (in a later episode); the confirmations are 4 ≥ 3 seconds
apart. -/
theorem detector_confirmations_spaced_by_cooldown_witness :
    handParams.cooldown ≤ (5 : ℚ) - 1 :=
  detector_confirmations_spaced_by_cooldown handParams
    [(true, 0)] [(false, 2), (true, 3)] [] true true 1 5
    (by norm_num)
    (by norm_num [detRun, detStep, detInit, handParams, cooldownOk])
    (by norm_num [detRun, detStep, detInit, handParams, cooldownOk])

/-- After a confirmation the detector sits in its "already confirmed this
episode" configuration (`raw_active` with no `episode_start`); a call
with a true signal then changes nothing and returns `False`. -/
theorem detStep_after_confirm (p : DetParams) (s : DetectorState) (t : ℚ)
    (hraw : s.raw_active = true) (hes : s.episode_start = none) :
    detStep p s true t = (s, false) := by
  simp [detStep, hraw, hes]

theorem detRun_after_confirm (p : DetParams) :
    ∀ (tr : List (Bool × ℚ)) (s : DetectorState), s.raw_active = true →
      s.episode_start = none → (∀ c ∈ tr, c.1 = true) →
      detRun p s tr = (s, List.replicate tr.length false) := by
  intro tr
  induction tr with
  | nil => intro s _ _ _; rfl
  | cons c cs ih =>
    intro s hraw hes hall
    have hc : c.1 = true := hall c (List.mem_cons_self c cs)
    rw [detRun_cons, hc, detStep_after_confirm p s c.2 hraw hes]
    rw [ih s hraw hes (fun d hd => hall d (List.mem_cons_of_mem c hd))]
    simp [List.replicate_succ]

/-- C3: within one continuous run of true signals, a confirmation happens
at most once: if the call at time `t1` confirms and every signal from it
up to the call at time `t2` is still true (one episode), the call at
`t2` returns no confirmation. -/
theorem detector_confirms_at_most_once_per_episode (p : DetParams)
    (pre mid rest : List (Bool × ℚ)) (t1 t2 : ℚ)
    (hmid : ∀ c ∈ mid, c.1 = true)
    (hconf1 : (detRun p detInit
      (pre ++ (true, t1) :: (mid ++ (true, t2) :: rest))).2[pre.length]? = some true) :
    (detRun p detInit
      (pre ++ (true, t1) :: (mid ++ (true, t2) :: rest))).2[(pre ++ (true, t1) :: mid).length]?
      = some false := by
  have h1 : (detStep p (detRun p detInit pre).1 true t1).2 = true := by
    rw [detRun_output_middle] at hconf1
    simpa using hconf1
  obtain ⟨_, hraw1, e1, hes1, hsus1, hok1, hst1⟩ := detStep_confirm p _ true t1 h1
  have hraw' : (detStep p (detRun p detInit pre).1 true t1).1.raw_active = true := by
    rw [hst1]
    exact hraw1
  have hes' : (detStep p (detRun p detInit pre).1 true t1).1.episode_start = none := by
    rw [hst1]
  have htr : pre ++ (true, t1) :: (mid ++ (true, t2) :: rest)
      = (pre ++ (true, t1) :: mid) ++ (true, t2) :: rest := by
    simp
  rw [htr, detRun_output_middle]
  have hsplit : (detRun p detInit (pre ++ (true, t1) :: mid)).1
      = (detRun p (detStep p (detRun p detInit pre).1 true t1).1 mid).1 := by
    rw [detRun_append, detRun_cons]
  rw [hsplit, detRun_after_confirm p mid _ hraw' hes' hmid,
    detStep_after_confirm p _ t2 hraw' hes']

/-- Witness for C3: with signals true at times 0, 1, 2, the call at time
1 confirms, so the call at time 2 — same episode — returns `False`. -/
theorem detector_confirms_at_most_once_per_episode_witness :
    (detRun handParams detInit
      ([(true, 0)] ++ (true, 1) :: [] ++ (true, 2) :: [])).2[([(true, 0)] ++ (true, 1) :: ([] : List (Bool × ℚ))).length]?
      = some false :=
  detector_confirms_at_most_once_per_episode handParams [(true, 0)] [] [] 1 2
    (by simp)
    (by norm_num [detRun, detStep, detInit, handParams, cooldownOk])

/-- `yaw_threshold = 20` degrees (FaceMovementDetector attribute). -/
def yaw_threshold : ℚ := 20

/-- `pitch_threshold = 15` degrees (FaceMovementDetector attribute). -/
def pitch_threshold : ℚ := 15

/-- The `face_data` dictionary built by
`FaceMovementDetector.detect_face_movement` (the `head_pose` entry is
carried separately as this function's input). -/
structure FaceMovementResult where
  face_detected : Bool
  looking_away : Bool
  attention_score : ℚ
deriving DecidableEq

/-- `FaceMovementDetector.detect_face_movement`, with the MediaPipe face
mesh and the solvePnP head-pose solver as external collaborators:
`face_detected` says whether `results.multi_face_landmarks` was
non-empty, `head_pose` is the `(yaw, pitch)` pair of
`_calculate_head_pose`, `none` when that returns `None`.  The dictionary
starts as `{'face_detected': False, 'looking_away': False,
'attention_score': 0}` and entries are only overwritten when a face —
and then a pose — is found. -/
def detect_face_movement (face_detected : Bool) (head_pose : Option (ℚ × ℚ)) :
    FaceMovementResult :=
  if face_detected then
    match head_pose with
    | some yp =>
      { face_detected := true
        looking_away :=
          decide (yaw_threshold < |yp.1|) || decide (pitch_threshold < |yp.2|)
        attention_score := (max 0 (100 - |yp.1| * 2) + max 0 (100 - |yp.2| * 3)) / 2 }
    | none => { face_detected := true, looking_away := false, attention_score := 0 }
  else
    { face_detected := false, looking_away := false, attention_score := 0 }

/-- One element of the `recognized_students` list returned by the face
recognition collaborator: `student_id` is `None` for a detected but
unidentified face. -/
structure RecognizedStudent where
  student_id : Option String
  name : String
deriving DecidableEq

/-- The per-student dictionary stored in
`BehaviorTrackingSystem.active_students`. -/
structure StudentData where
  name : String
  first_seen : ℚ
  last_seen : ℚ
  hand_raises : ℕ
  looking_away_count : ℕ
  attention_scores : List ℚ
  total_frames : ℕ
deriving DecidableEq

/-- The mutable state of a `BehaviorTrackingSystem`:
`active_students` is the insertion-ordered dict `student_id → data`,
`attendance_marked` the set of already-marked ids, plus the two detector
states and `session_start_time`. -/
structure SysState where
  active_students : List (String × StudentData)
  attendance_marked : List String
  hand_detector : DetectorState
  face_movement_detector : DetectorState
  session_start : Option ℚ
deriving DecidableEq

/-- Dict read `active_students[student_id]` (first matching key). -/
def lookupStudent : List (String × StudentData) → String → Option StudentData
  | [], _ => none
  | p :: l, id => if p.1 = id then some p.2 else lookupStudent l id

/-- Dict write `active_students[student_id] = data`: overwrite in place,
or append preserving insertion order. -/
def setStudent : List (String × StudentData) → String → StudentData →
    List (String × StudentData)
  | [], id, d => [(id, d)]
  | p :: l, id, d => if p.1 = id then (id, d) :: l else p :: setStudent l id d

/-- Apply `f` to every stored student record (`for student_id in
self.active_students.keys(): ...`). -/
def mapStudents (f : StudentData → StudentData)
    (l : List (String × StudentData)) : List (String × StudentData) :=
  l.map (fun p => (p.1, f p.2))

/-- State set up by `BehaviorTrackingSystem.__init__`. -/
def initSysState : SysState :=
  { active_students := [], attendance_marked := [], hand_detector := detInit,
    face_movement_detector := detInit, session_start := none }

/-- `start_monitoring_session` line `self.session_start_time = datetime.now()`. -/
def startSession (s : SysState) (t : ℚ) : SysState :=
  { s with session_start := some t }

/-- Body of the `for student in recognized_students` loop of
`_process_frame` for one recognized student, threading the state and the
list of `mark_attendance` side effects emitted so far this frame. -/
def processStudent (t : ℚ) (acc : SysState × List String)
    (stu : RecognizedStudent) : SysState × List String :=
  match stu.student_id with
  | none => acc
  | some id =>
    let s := acc.1
    let d0 := match lookupStudent s.active_students id with
      | some d => d
      | none =>
        { name := stu.name, first_seen := t, last_seen := t, hand_raises := 0,
          looking_away_count := 0, attention_scores := [], total_frames := 0 }
    let d1 := { d0 with last_seen := t, total_frames := d0.total_frames + 1 }
    let s1 := { s with active_students := setStudent s.active_students id d1 }
    if id ∈ s1.attendance_marked then (s1, acc.2)
    else ({ s1 with attendance_marked := id :: s1.attendance_marked }, acc.2 ++ [id])

/-- Section 1 of `_process_frame`: update `active_students` and mark
attendance for each recognized, identified student. -/
def updateStudentsAndAttendance (s : SysState)
    (recognized : List RecognizedStudent) (t : ℚ) : SysState × List String :=
  recognized.foldl (processStudent t) (s, [])

/-- Section 2 of `_process_frame` (hand gesture detection): the detector
update is reached only when `hand_data['hands_detected']` is true; on a
newly confirmed raise every stored record's `hand_raises` is
incremented. -/
def applyHand (s : SysState) (hands_detected hand_raised : Bool) (t : ℚ) :
    SysState × Bool :=
  if hands_detected then
    if hand_raised then
      let r := update_hand_raise_count s.hand_detector true t
      if r.2 then
        ({ s with hand_detector := r.1,
                  active_students :=
                    mapStudents (fun d => { d with hand_raises := d.hand_raises + 1 })
                      s.active_students }, true)
      else ({ s with hand_detector := r.1 }, false)
    else ({ s with hand_detector := (update_hand_raise_count s.hand_detector false t).1 }, false)
  else (s, false)

/-- Section 3 of `_process_frame` (face movement detection): when a face
is detected the frame's `attention_score` is appended to every stored
record, then the looking-away detector is fed; on a newly confirmed
looking-away event every stored record's `looking_away_count` is
incremented. -/
def applyFace (s : SysState) (face_detected : Bool)
    (head_pose : Option (ℚ × ℚ)) (t : ℚ) : SysState × Bool :=
  let fd := detect_face_movement face_detected head_pose
  if fd.face_detected then
    let s1 := { s with
      active_students :=
        mapStudents
          (fun d => { d with attention_scores := d.attention_scores ++ [fd.attention_score] })
          s.active_students }
    if fd.looking_away then
      let r := update_looking_away_count s1.face_movement_detector true t
      if r.2 then
        ({ s1 with face_movement_detector := r.1,
                   active_students :=
                     mapStudents (fun d => { d with looking_away_count := d.looking_away_count + 1 })
                       s1.active_students }, true)
      else ({ s1 with face_movement_detector := r.1 }, false)
    else
      ({ s1 with face_movement_detector :=
          (update_looking_away_count s1.face_movement_detector false t).1 }, false)
  else (s, false)

/-- What the external collaborators deliver for one frame: the
recognition list, `hand_data['hands_detected']` / `['hand_raised']`, and
the face/pose observation. -/
structure FrameInput where
  recognized : List RecognizedStudent
  hands_detected : Bool
  hand_raised : Bool
  face_detected : Bool
  head_pose : Option (ℚ × ℚ)
deriving DecidableEq

/-- Observable effects of one `_process_frame` call: the ids passed to
`db.mark_attendance` this frame, and whether each detector confirmed a
new event. -/
structure FrameOutput where
  attendance_events : List String
  hand_confirmed : Bool
  looking_away_confirmed : Bool
deriving DecidableEq

/-- `BehaviorTrackingSystem._process_frame` at time `t`
(`current_time = datetime.now()`), with drawing omitted. -/
def process_frame (s : SysState) (inp : FrameInput) (t : ℚ) :
    SysState × FrameOutput :=
  let a := updateStudentsAndAttendance s inp.recognized t
  let h := applyHand a.1 inp.hands_detected inp.hand_raised t
  let f := applyFace h.1 inp.face_detected inp.head_pose t
  (f.1, { attendance_events := a.2, hand_confirmed := h.2,
          looking_away_confirmed := f.2 })

/-- The monitoring loop: process frames in order, concatenating the
`mark_attendance` side effects. -/
def sysRun (s : SysState) : List (FrameInput × ℚ) → SysState × List String
  | [] => (s, [])
  | f :: fs =>
    let r := process_frame s f.1 f.2
    let rest := sysRun r.1 fs
    (rest.1, r.2.attendance_events ++ rest.2)

/-- `BehaviorTrackingSystem._reset_statistics`. -/
def reset_statistics (s : SysState) : SysState :=
  { s with hand_detector := reset_count s.hand_detector,
           face_movement_detector := reset_count s.face_movement_detector,
           active_students :=
             mapStudents
               (fun d =>
                 { d with hand_raises := 0, looking_away_count := 0,
                          attention_scores := [] })
               s.active_students }

/-- Python `int(...)` on a non-negative-or-not rational number of
seconds: truncation toward zero (`Int.div` is T-division and the
denominator is positive). -/
def pyInt (q : ℚ) : ℤ :=
  Int.tdiv q.num q.den

/-- One row passed to `db.log_behavior` by `_save_session_report`. -/
structure BehaviorLogEntry where
  student_id : String
  attention_score : ℚ
  hand_raises : ℕ
  looking_away_count : ℕ
  total_duration : ℤ
deriving DecidableEq

/-- `BehaviorTrackingSystem._save_session_report`: nothing is emitted
when no session was started; otherwise one `log_behavior` row per stored
student, with `np.mean(...) if ... else 0` as the average and
`int((last_seen - first_seen).total_seconds())` as the duration. -/
def save_session_report (s : SysState) : List BehaviorLogEntry :=
  match s.session_start with
  | none => []
  | some _ =>
    s.active_students.map (fun p =>
      { student_id := p.1
        attention_score :=
          if p.2.attention_scores = [] then 0
          else p.2.attention_scores.sum / p.2.attention_scores.length
        hand_raises := p.2.hand_raises
        looking_away_count := p.2.looking_away_count
        total_duration := pyInt (p.2.last_seen - p.2.first_seen) })

/-- C7: for every `(yaw, pitch)` pair handed over by the pose solver,
`detect_face_movement` classifies `looking_away` exactly when
`|yaw| > 20` or `|pitch| > 15` (the default thresholds), and computes
`attention_score = (max(0, 100 - |yaw|*2) + max(0, 100 - |pitch|*3)) / 2`,
which always lies in `[0, 100]`. -/
theorem attention_scorer_spec (yaw pitch : ℚ) :
    ((detect_face_movement true (some (yaw, pitch))).looking_away = true ↔
      (20 < |yaw| ∨ 15 < |pitch|)) ∧
    (detect_face_movement true (some (yaw, pitch))).attention_score =
      (max 0 (100 - |yaw| * 2) + max 0 (100 - |pitch| * 3)) / 2 ∧
    0 ≤ (detect_face_movement true (some (yaw, pitch))).attention_score ∧
    (detect_face_movement true (some (yaw, pitch))).attention_score ≤ 100 := by
  have hy := abs_nonneg yaw
  have hp := abs_nonneg pitch
  have h1 : (0 : ℚ) ≤ max 0 (100 - |yaw| * 2) := le_max_left 0 _
  have h2 : (0 : ℚ) ≤ max 0 (100 - |pitch| * 3) := le_max_left 0 _
  have h3 : max 0 (100 - |yaw| * 2) ≤ 100 := max_le (by norm_num) (by nlinarith)
  have h4 : max 0 (100 - |pitch| * 3) ≤ 100 := max_le (by norm_num) (by nlinarith)
  refine ⟨?_, rfl, ?_, ?_⟩
  · simp [detect_face_movement, yaw_threshold, pitch_threshold]
  · show 0 ≤ (max 0 (100 - |yaw| * 2) + max 0 (100 - |pitch| * 3)) / 2
    linarith
  · show (max 0 (100 - |yaw| * 2) + max 0 (100 - |pitch| * 3)) / 2 ≤ 100
    linarith

/-- Section 1 of `_process_frame` never touches the detector states or
the session start time. -/
theorem processStudent_preserves (t : ℚ) (acc : SysState × List String)
    (stu : RecognizedStudent) :
    (processStudent t acc stu).1.hand_detector = acc.1.hand_detector ∧
    (processStudent t acc stu).1.face_movement_detector = acc.1.face_movement_detector ∧
    (processStudent t acc stu).1.session_start = acc.1.session_start := by
  rcases hstu : stu.student_id with _ | id
  · simp [processStudent, hstu]
  · simp only [processStudent, hstu]
    split
    · exact ⟨rfl, rfl, rfl⟩
    · exact ⟨rfl, rfl, rfl⟩

theorem foldStudents_preserves (t : ℚ) :
    ∀ (rec : List RecognizedStudent) (acc : SysState × List String),
      (rec.foldl (processStudent t) acc).1.hand_detector = acc.1.hand_detector ∧
      (rec.foldl (processStudent t) acc).1.face_movement_detector
        = acc.1.face_movement_detector ∧
      (rec.foldl (processStudent t) acc).1.session_start = acc.1.session_start := by
  intro rec
  induction rec with
  | nil => intro acc; exact ⟨rfl, rfl, rfl⟩
  | cons stu rest ih =>
    intro acc
    have h1 := processStudent_preserves t acc stu
    have h2 := ih (processStudent t acc stu)
    exact ⟨h2.1.trans h1.1, h2.2.1.trans h1.2.1, h2.2.2.trans h1.2.2⟩

/-- Section 3 of `_process_frame` never touches the hand detector, the
attendance ledger or the session start time. -/
theorem applyFace_preserves (s : SysState) (fdet : Bool)
    (hp : Option (ℚ × ℚ)) (t : ℚ) :
    (applyFace s fdet hp t).1.hand_detector = s.hand_detector ∧
    (applyFace s fdet hp t).1.attendance_marked = s.attendance_marked ∧
    (applyFace s fdet hp t).1.session_start = s.session_start := by
  cases hfd : (detect_face_movement fdet hp).face_detected with
  | false => simp [applyFace, hfd]
  | true =>
    cases hla : (detect_face_movement fdet hp).looking_away with
    | false => simp [applyFace, hfd, hla]
    | true =>
      simp only [applyFace, hfd, hla, if_true]
      split
      · exact ⟨rfl, rfl, rfl⟩
      · exact ⟨rfl, rfl, rfl⟩

/-- Section 2 of `_process_frame` never touches the face-movement
detector, the attendance ledger or the session start time. -/
theorem applyHand_preserves (s : SysState) (hd hr : Bool) (t : ℚ) :
    (applyHand s hd hr t).1.face_movement_detector = s.face_movement_detector ∧
    (applyHand s hd hr t).1.attendance_marked = s.attendance_marked ∧
    (applyHand s hd hr t).1.session_start = s.session_start := by
  cases hd with
  | false => simp [applyHand]
  | true =>
    cases hr with
    | false => simp [applyHand]
    | true =>
      simp only [applyHand, if_true]
      split
      · exact ⟨rfl, rfl, rfl⟩
      · exact ⟨rfl, rfl, rfl⟩

/-- C6, counterexample: the detector sees a hand raised at time 0 (an
episode starts), then at time 1/2 a frame arrives in which no hand is
detected at all — so the frame's raw hand-raised signal is false — yet
`_process_frame` leaves the hand-raise detector untouched: its
`episode_start` is still `some 0` and it is still marked raw-active,
instead of moving to IDLE with `episode_start` cleared. -/
theorem frame_without_hands_skips_detector_counterexample :
    ((process_frame
      (process_frame (startSession initSysState 0)
        { recognized := [], hands_detected := true, hand_raised := true,
          face_detected := false, head_pose := none } 0).1
      { recognized := [], hands_detected := false, hand_raised := false,
        face_detected := false, head_pose := none } (1/2)).1.hand_detector.episode_start
      = some 0) ∧
    ((process_frame
      (process_frame (startSession initSysState 0)
        { recognized := [], hands_detected := true, hand_raised := true,
          face_detected := false, head_pose := none } 0).1
      { recognized := [], hands_detected := false, hand_raised := false,
        face_detected := false, head_pose := none } (1/2)).1.hand_detector.raw_active
      = true) := by
  norm_num [process_frame, updateStudentsAndAttendance, processStudent, applyHand,
    applyFace, update_hand_raise_count, update_looking_away_count, detStep,
    detect_face_movement, detInit, initSysState, startSession, handParams,
    awayParams, cooldownOk, lookupStudent, setStudent, mapStudents]

/-- C6 as amended: the raw hand-raised boolean is fed into the hand-raise
detector only on frames in which at least one hand is detected.  On a
hands-detected frame with the raw signal false the detector goes idle
with `episode_start` cleared; on a hands-detected frame with the signal
true the detector performs its debounce update; but a frame with no
hands detected leaves the detector state completely untouched. -/
theorem process_frame_hand_detector_feed (s : SysState) (inp : FrameInput) (t : ℚ) :
    (inp.hands_detected = false →
      (process_frame s inp t).1.hand_detector = s.hand_detector) ∧
    (inp.hands_detected = true → inp.hand_raised = false →
      (process_frame s inp t).1.hand_detector =
        { s.hand_detector with raw_active := false, episode_start := none }) ∧
    (inp.hands_detected = true → inp.hand_raised = true →
      (process_frame s inp t).1.hand_detector =
        (update_hand_raise_count s.hand_detector true t).1) := by
  have hfold := foldStudents_preserves t inp.recognized (s, [])
  have hface := fun s2 => (applyFace_preserves s2 inp.face_detected inp.head_pose t).1
  refine ⟨fun h => ?_, fun h h2 => ?_, fun h h2 => ?_⟩
  · show (applyFace (applyHand (updateStudentsAndAttendance s inp.recognized t).1
      inp.hands_detected inp.hand_raised t).1 inp.face_detected inp.head_pose t).1.hand_detector
      = s.hand_detector
    rw [hface]
    rw [h]
    simpa [applyHand] using hfold.1
  · show (applyFace (applyHand (updateStudentsAndAttendance s inp.recognized t).1
      inp.hands_detected inp.hand_raised t).1 inp.face_detected inp.head_pose t).1.hand_detector
      = { s.hand_detector with raw_active := false, episode_start := none }
    rw [hface, h, h2]
    simp only [applyHand, if_true, if_false, Bool.false_eq_true]
    simp [update_hand_raise_count, detStep, updateStudentsAndAttendance, hfold.1]
  · show (applyFace (applyHand (updateStudentsAndAttendance s inp.recognized t).1
      inp.hands_detected inp.hand_raised t).1 inp.face_detected inp.head_pose t).1.hand_detector
      = (update_hand_raise_count s.hand_detector true t).1
    rw [hface, h, h2]
    simp only [applyHand, if_true]
    split
    · simp [updateStudentsAndAttendance, hfold.1]
    · simp [updateStudentsAndAttendance, hfold.1]

/-- Witness for the amended C6: on a concrete state whose detector is
mid-episode, a hands-detected frame with the hand not raised resets the
detector to idle and clears `episode_start`. -/
theorem process_frame_hand_detector_feed_witness :
    (process_frame
      { active_students := [], attendance_marked := [],
        hand_detector :=
          { raw_active := true, episode_start := some 0, count := 0,
            last_confirmed := none },
        face_movement_detector := detInit, session_start := some 0 }
      { recognized := [], hands_detected := true, hand_raised := false,
        face_detected := false, head_pose := none } 1).1.hand_detector =
    { raw_active := false, episode_start := none, count := 0,
      last_confirmed := none } :=
  (process_frame_hand_detector_feed
    { active_students := [], attendance_marked := [],
      hand_detector :=
        { raw_active := true, episode_start := some 0, count := 0,
          last_confirmed := none },
      face_movement_detector := detInit, session_start := some 0 }
    { recognized := [], hands_detected := true, hand_raised := false,
      face_detected := false, head_pose := none } 1).2.1 rfl rfl

theorem lookupStudent_map (f : StudentData → StudentData)
    (l : List (String × StudentData)) (id : String) :
    lookupStudent (mapStudents f l) id = (lookupStudent l id).map f := by
  induction l with
  | nil => rfl
  | cons p l ih =>
    by_cases h : p.1 = id
    · simp [mapStudents, lookupStudent, h]
    · simp only [mapStudents, List.map_cons, lookupStudent, h, if_false] at ih ⊢
      simpa [mapStudents] using ih

theorem lookupStudent_set_self (id : String) (d : StudentData) :
    ∀ l, lookupStudent (setStudent l id d) id = some d := by
  intro l
  induction l with
  | nil => simp [setStudent, lookupStudent]
  | cons p l ih =>
    by_cases h : p.1 = id
    · simp [setStudent, lookupStudent, h]
    · simp [setStudent, lookupStudent, h, ih]

theorem lookupStudent_set_ne (id id2 : String) (d : StudentData)
    (h : id ≠ id2) :
    ∀ l, lookupStudent (setStudent l id d) id2 = lookupStudent l id2 := by
  intro l
  induction l with
  | nil => simp [setStudent, lookupStudent, h]
  | cons p l ih =>
    by_cases hp : p.1 = id
    · simp [setStudent, lookupStudent, hp, h]
    · by_cases hp2 : p.1 = id2
      · simp [setStudent, lookupStudent, hp, hp2, Ne.symm h]
      · simp [setStudent, lookupStudent, hp, hp2, ih]

/-- The behavioral payload of a stored record (hand raises, looking-away
count, attention samples), with the zero payload for an absent record. -/
def behOf (o : Option StudentData) : ℕ × ℕ × List ℚ :=
  match o with
  | some d => (d.hand_raises, d.looking_away_count, d.attention_scores)
  | none => (0, 0, [])

/-- Section 1 of `_process_frame` never changes any record's behavioral
payload: it creates records with zeroed counters and an empty sample
list, and only touches `last_seen` / `total_frames` on existing ones. -/
theorem processStudent_beh (t : ℚ) (acc : SysState × List String)
    (stu : RecognizedStudent) (id : String) :
    behOf (lookupStudent (processStudent t acc stu).1.active_students id)
      = behOf (lookupStudent acc.1.active_students id) := by
  rcases hstu : stu.student_id with _ | sid
  · simp [processStudent, hstu]
  · simp only [processStudent, hstu]
    split
    · by_cases hid : sid = id
      · subst hid
        rw [lookupStudent_set_self]
        cases hd0 : lookupStudent acc.1.active_students sid with
        | none => simp [behOf, hd0]
        | some d => simp [behOf, hd0]
      · rw [lookupStudent_set_ne sid id _ hid]
    · by_cases hid : sid = id
      · subst hid
        rw [lookupStudent_set_self]
        cases hd0 : lookupStudent acc.1.active_students sid with
        | none => simp [behOf, hd0]
        | some d => simp [behOf, hd0]
      · rw [lookupStudent_set_ne sid id _ hid]

theorem foldStudents_beh (t : ℚ) :
    ∀ (rec : List RecognizedStudent) (acc : SysState × List String) (id : String),
      behOf (lookupStudent (rec.foldl (processStudent t) acc).1.active_students id)
        = behOf (lookupStudent acc.1.active_students id) := by
  intro rec
  induction rec with
  | nil => intro acc id; rfl
  | cons stu rest ih =>
    intro acc id
    rw [List.foldl_cons, ih, processStudent_beh]

/-- If section 2 confirms a hand raise, every stored record's
`hand_raises` is incremented. -/
theorem applyHand_confirmed (s : SysState) (hd hr : Bool) (t : ℚ)
    (h : (applyHand s hd hr t).2 = true) :
    (applyHand s hd hr t).1.active_students =
      mapStudents (fun d => { d with hand_raises := d.hand_raises + 1 })
        s.active_students := by
  cases hd with
  | false => simp [applyHand] at h
  | true =>
    cases hr with
    | false => simp [applyHand] at h
    | true =>
      by_cases hc : (update_hand_raise_count s.hand_detector true t).2 = true
      · simp [applyHand, hc]
      · simp [applyHand, hc] at h

/-- Section 3 never changes any record's `hand_raises` value. -/
theorem applyFace_hand_raises (s : SysState) (fdet : Bool)
    (hp : Option (ℚ × ℚ)) (t : ℚ) (id : String) :
    Option.map StudentData.hand_raises
      (lookupStudent (applyFace s fdet hp t).1.active_students id)
      = Option.map StudentData.hand_raises
          (lookupStudent s.active_students id) := by
  cases hfd : (detect_face_movement fdet hp).face_detected with
  | false => simp [applyFace, hfd]
  | true =>
    cases hla : (detect_face_movement fdet hp).looking_away with
    | false =>
      simp only [applyFace, hfd, hla, if_true, Bool.false_eq_true, if_false]
      rw [lookupStudent_map]
      cases lookupStudent s.active_students id <;> rfl
    | true =>
      simp only [applyFace, hfd, hla, if_true]
      split
      · rw [lookupStudent_map, lookupStudent_map]
        cases lookupStudent s.active_students id <;> rfl
      · rw [lookupStudent_map]
        cases lookupStudent s.active_students id <;> rfl

/-- State after one frame at time 0 in which only Alice is recognized
and a hand is detected raised: her record is created, attendance marked,
and the hand-raise episode starts. -/
theorem evalFrameAliceRaise :
    (process_frame (startSession initSysState 0)
      { recognized := [{ student_id := some "A", name := "Alice" }],
        hands_detected := true, hand_raised := true,
        face_detected := false, head_pose := none } 0).1
    = { active_students :=
          [("A",
            { name := "Alice", first_seen := 0, last_seen := 0, hand_raises := 0,
              looking_away_count := 0, attention_scores := [], total_frames := 1 })],
        attendance_marked := ["A"],
        hand_detector :=
          { raw_active := true, episode_start := some 0, count := 0,
            last_confirmed := none },
        face_movement_detector := detInit,
        session_start := some 0 } := by
  simp [process_frame, updateStudentsAndAttendance, processStudent, applyHand,
    applyFace, update_hand_raise_count, update_looking_away_count, detStep,
    detect_face_movement, detInit, initSysState, startSession, handParams,
    awayParams, cooldownOk, lookupStudent, setStudent, mapStudents]

/-- C4, counterexample to "… on every currently-visible record and on no
other record": Alice is recognized in the first frame only; in the second
frame only Bob is visible while the hand-raise confirms, yet Alice's
`hand_raises` also goes from 0 to 1. -/
theorem hand_raise_fanout_counterexample :
    ((process_frame
        (process_frame (startSession initSysState 0)
          { recognized := [{ student_id := some "A", name := "Alice" }],
            hands_detected := true, hand_raised := true,
            face_detected := false, head_pose := none } 0).1
        { recognized := [{ student_id := some "B", name := "Bob" }],
          hands_detected := true, hand_raised := true,
          face_detected := false, head_pose := none } 1).2.hand_confirmed = true) ∧
    (Option.map StudentData.hand_raises
      (lookupStudent
        (process_frame (startSession initSysState 0)
          { recognized := [{ student_id := some "A", name := "Alice" }],
            hands_detected := true, hand_raised := true,
            face_detected := false, head_pose := none } 0).1.active_students "A")
      = some 0) ∧
    (Option.map StudentData.hand_raises
      (lookupStudent
        (process_frame
          (process_frame (startSession initSysState 0)
            { recognized := [{ student_id := some "A", name := "Alice" }],
              hands_detected := true, hand_raised := true,
              face_detected := false, head_pose := none } 0).1
          { recognized := [{ student_id := some "B", name := "Bob" }],
            hands_detected := true, hand_raised := true,
            face_detected := false, head_pose := none } 1).1.active_students "A")
      = some 1) := by
  rw [evalFrameAliceRaise]
  simp [process_frame, updateStudentsAndAttendance, processStudent, applyHand,
    applyFace, update_hand_raise_count, update_looking_away_count, detStep,
    detect_face_movement, detInit, initSysState, startSession, handParams,
    awayParams, cooldownOk, lookupStudent, setStudent, mapStudents]

/-- The `hand_raises` value stored for `id`, 0 when no record exists. -/
def storedHandRaises (s : SysState) (id : String) : ℕ :=
  match lookupStudent s.active_students id with
  | some d => d.hand_raises
  | none => 0

/-- C4 as amended: when the hand-raise detector confirms during a frame,
`hand_raises` is incremented by exactly 1 on **every** record in the
session map — every entity seen at any earlier point of the session and
every entity recognized this frame, whether or not it is visible in this
frame — and the map holds no other records. -/
theorem hand_raise_fanout (s : SysState) (inp : FrameInput) (t : ℚ)
    (hconf : (process_frame s inp t).2.hand_confirmed = true) :
    ∀ id d2, lookupStudent (process_frame s inp t).1.active_students id = some d2 →
      d2.hand_raises = storedHandRaises s id + 1 := by
  intro id d2 hlook
  have hconf2 : (applyHand (updateStudentsAndAttendance s inp.recognized t).1
      inp.hands_detected inp.hand_raised t).2 = true := hconf
  have h1 : Option.map StudentData.hand_raises
      (lookupStudent (process_frame s inp t).1.active_students id)
      = some d2.hand_raises := by
    rw [hlook]
    rfl
  have h2 : (process_frame s inp t).1.active_students
      = (applyFace (applyHand (updateStudentsAndAttendance s inp.recognized t).1
          inp.hands_detected inp.hand_raised t).1 inp.face_detected inp.head_pose t).1.active_students := rfl
  rw [h2, applyFace_hand_raises, applyHand_confirmed _ _ _ _ hconf2,
    lookupStudent_map] at h1
  have hbeh := foldStudents_beh t inp.recognized (s, []) id
  cases hl : lookupStudent
      (updateStudentsAndAttendance s inp.recognized t).1.active_students id with
  | none =>
    rw [show (List.foldl (processStudent t) (s, []) inp.recognized)
        = updateStudentsAndAttendance s inp.recognized t from rfl, hl] at hbeh
    rw [hl] at h1
    simp at h1
  | some d1 =>
    rw [show (List.foldl (processStudent t) (s, []) inp.recognized)
        = updateStudentsAndAttendance s inp.recognized t from rfl, hl] at hbeh
    rw [hl] at h1
    simp at h1
    have hd1 : d1.hand_raises = storedHandRaises s id := by
      have := congrArg Prod.fst hbeh
      simp [behOf] at this
      rw [storedHandRaises]
      cases hs : lookupStudent s.active_students id with
      | none => simpa [behOf, hs] using this
      | some d => simpa [behOf, hs] using this
    omega

/-- Witness for the amended C4: in the concrete two-student scenario of
the counterexample, Alice's record — absent from the confirming frame —
ends with `hand_raises` equal to her previous count plus one. -/
theorem hand_raise_fanout_witness :
    ({ name := "Alice", first_seen := 0, last_seen := 0, hand_raises := 1,
       looking_away_count := 0, attention_scores := [],
       total_frames := 1 } : StudentData).hand_raises
      = storedHandRaises
        (process_frame (startSession initSysState 0)
          { recognized := [{ student_id := some "A", name := "Alice" }],
            hands_detected := true, hand_raised := true,
            face_detected := false, head_pose := none } 0).1 "A" + 1 :=
  hand_raise_fanout
    (process_frame (startSession initSysState 0)
      { recognized := [{ student_id := some "A", name := "Alice" }],
        hands_detected := true, hand_raised := true,
        face_detected := false, head_pose := none } 0).1
    { recognized := [{ student_id := some "B", name := "Bob" }],
      hands_detected := true, hand_raised := true,
      face_detected := false, head_pose := none } 1
    (by
      rw [evalFrameAliceRaise]
      simp [process_frame, updateStudentsAndAttendance, processStudent,
        applyHand, applyFace, update_hand_raise_count, update_looking_away_count,
        detStep, detect_face_movement, detInit, initSysState, startSession,
        handParams, awayParams, cooldownOk, lookupStudent, setStudent, mapStudents])
    "A"
    { name := "Alice", first_seen := 0, last_seen := 0, hand_raises := 1,
      looking_away_count := 0, attention_scores := [], total_frames := 1 }
    (by
      rw [evalFrameAliceRaise]
      simp [process_frame, updateStudentsAndAttendance, processStudent,
        applyHand, applyFace, update_hand_raise_count, update_looking_away_count,
        detStep, detect_face_movement, detInit, initSysState, startSession,
        handParams, awayParams, cooldownOk, lookupStudent, setStudent, mapStudents])

/-- Section 2 never changes any record's `attention_scores`. -/
theorem applyHand_attention_scores (s : SysState) (hd hr : Bool) (t : ℚ)
    (id : String) :
    Option.map StudentData.attention_scores
      (lookupStudent (applyHand s hd hr t).1.active_students id)
      = Option.map StudentData.attention_scores
          (lookupStudent s.active_students id) := by
  cases hd with
  | false => simp [applyHand]
  | true =>
    cases hr with
    | false => simp [applyHand]
    | true =>
      by_cases hc : (update_hand_raise_count s.hand_detector true t).2 = true
      · simp only [applyHand, hc, if_true]
        rw [lookupStudent_map]
        cases lookupStudent s.active_students id <;> rfl
      · simp [applyHand, hc]

/-- With no face detected, section 3 is a no-op. -/
theorem applyFace_no_face (s : SysState) (hp : Option (ℚ × ℚ)) (t : ℚ) :
    applyFace s false hp t = (s, false) := rfl

/-- With a face detected but no solvable head pose, section 3 appends the
`attention_score` **default 0** to every stored record and feeds `False`
to the looking-away detector. -/
theorem applyFace_face_no_pose (s : SysState) (t : ℚ) :
    applyFace s true none t =
      ({ s with
          active_students :=
            mapStudents
              (fun d => { d with attention_scores := d.attention_scores ++ [0] })
              s.active_students,
          face_movement_detector :=
            (update_looking_away_count s.face_movement_detector false t).1 },
        false) := rfl

/-- The sample list stored for `id`, `[]` when no record exists. -/
def storedScores (s : SysState) (id : String) : List ℚ :=
  match lookupStudent s.active_students id with
  | some d => d.attention_scores
  | none => []

/-- Section 1 leaves each record's sample list as it was (empty for a
newly created record). -/
theorem foldStudents_scores (t : ℚ) (rec : List RecognizedStudent)
    (s : SysState) (id : String) (d : StudentData)
    (h : lookupStudent (updateStudentsAndAttendance s rec t).1.active_students id
      = some d) :
    d.attention_scores = storedScores s id := by
  have hbeh := foldStudents_beh t rec (s, []) id
  rw [show List.foldl (processStudent t) (s, []) rec
      = updateStudentsAndAttendance s rec t from rfl, h] at hbeh
  have h22 := congrArg (fun x => x.2.2) hbeh
  simp only [behOf] at h22
  rw [storedScores]
  cases hs : lookupStudent s.active_students id with
  | none => simpa [behOf, hs] using h22
  | some d0 => simpa [behOf, hs] using h22

/-- State after one frame at time 0 in which only Alice is recognized
and neither hands nor a face are detected. -/
theorem evalFrameAliceNoSignals :
    (process_frame (startSession initSysState 0)
      { recognized := [{ student_id := some "A", name := "Alice" }],
        hands_detected := false, hand_raised := false,
        face_detected := false, head_pose := none } 0).1
    = { active_students :=
          [("A",
            { name := "Alice", first_seen := 0, last_seen := 0, hand_raises := 0,
              looking_away_count := 0, attention_scores := [], total_frames := 1 })],
        attendance_marked := ["A"],
        hand_detector := detInit,
        face_movement_detector := detInit,
        session_start := some 0 } := by
  simp [process_frame, updateStudentsAndAttendance, processStudent, applyHand,
    applyFace, update_hand_raise_count, update_looking_away_count, detStep,
    detect_face_movement, detInit, initSysState, startSession, handParams,
    awayParams, cooldownOk, lookupStudent, setStudent, mapStudents]

/-- C5, counterexample to "signal absence … is never recorded as a
zero-valued sample": Alice is on record; a frame arrives in which a face
is detected but the pose solver returns nothing (no pose, hence no
score can be computed), and the dictionary default 0 is appended to
Alice's `attention_scores` as a sample. -/
theorem absent_pose_records_zero_sample_counterexample :
    Option.map StudentData.attention_scores
      (lookupStudent
        (process_frame
          (process_frame (startSession initSysState 0)
            { recognized := [{ student_id := some "A", name := "Alice" }],
              hands_detected := false, hand_raised := false,
              face_detected := false, head_pose := none } 0).1
          { recognized := [], hands_detected := false, hand_raised := false,
            face_detected := true, head_pose := none } 1).1.active_students "A")
      = some [0] := by
  rw [evalFrameAliceNoSignals]
  simp [process_frame, updateStudentsAndAttendance, processStudent, applyHand,
    applyFace, update_hand_raise_count, update_looking_away_count, detStep,
    detect_face_movement, detInit, handParams,
    awayParams, cooldownOk, lookupStudent, setStudent, mapStudents]

/-- C5 as amended: on a frame with no face detected, no sample is
appended to any record (a record created this frame has an empty sample
list); but on a frame with a face detected whose head-pose estimation
fails, the default score 0 **is** appended as a sample to every stored
record. -/
theorem attention_sample_recording (s : SysState) (inp : FrameInput) (t : ℚ) :
    (inp.face_detected = false →
      ∀ id d2, lookupStudent (process_frame s inp t).1.active_students id = some d2 →
        d2.attention_scores = storedScores s id) ∧
    (inp.face_detected = true → inp.head_pose = none →
      ∀ id d2, lookupStudent (process_frame s inp t).1.active_students id = some d2 →
        d2.attention_scores = storedScores s id ++ [0]) := by
  constructor
  · intro hface id d2 hlook
    have h2 : (process_frame s inp t).1.active_students
        = (applyHand (updateStudentsAndAttendance s inp.recognized t).1
            inp.hands_detected inp.hand_raised t).1.active_students := by
      show (applyFace (applyHand (updateStudentsAndAttendance s inp.recognized t).1
        inp.hands_detected inp.hand_raised t).1 inp.face_detected inp.head_pose t).1.active_students
        = _
      rw [hface, applyFace_no_face]
    rw [h2] at hlook
    have h1 : Option.map StudentData.attention_scores
        (lookupStudent (applyHand (updateStudentsAndAttendance s inp.recognized t).1
          inp.hands_detected inp.hand_raised t).1.active_students id)
        = some d2.attention_scores := by
      rw [hlook]
      rfl
    rw [applyHand_attention_scores] at h1
    cases hl : lookupStudent
        (updateStudentsAndAttendance s inp.recognized t).1.active_students id with
    | none =>
      rw [hl] at h1
      simp at h1
    | some d1 =>
      rw [hl] at h1
      simp at h1
      rw [← h1]
      exact foldStudents_scores t inp.recognized s id d1 hl
  · intro hface hpose id d2 hlook
    have h2 : (process_frame s inp t).1.active_students
        = mapStudents
            (fun d => { d with attention_scores := d.attention_scores ++ [0] })
            (applyHand (updateStudentsAndAttendance s inp.recognized t).1
              inp.hands_detected inp.hand_raised t).1.active_students := by
      show (applyFace (applyHand (updateStudentsAndAttendance s inp.recognized t).1
        inp.hands_detected inp.hand_raised t).1 inp.face_detected inp.head_pose t).1.active_students
        = _
      rw [hface, hpose, applyFace_face_no_pose]
    rw [h2, lookupStudent_map] at hlook
    cases hl : lookupStudent (applyHand (updateStudentsAndAttendance s inp.recognized t).1
        inp.hands_detected inp.hand_raised t).1.active_students id with
    | none =>
      rw [hl] at hlook
      simp at hlook
    | some d1 =>
      rw [hl] at hlook
      simp at hlook
      have hsc : d1.attention_scores = storedScores s id := by
        have h1 : Option.map StudentData.attention_scores
            (lookupStudent (applyHand (updateStudentsAndAttendance s inp.recognized t).1
              inp.hands_detected inp.hand_raised t).1.active_students id)
            = some d1.attention_scores := by
          rw [hl]
          rfl
        rw [applyHand_attention_scores] at h1
        cases hl0 : lookupStudent
            (updateStudentsAndAttendance s inp.recognized t).1.active_students id with
        | none =>
          rw [hl0] at h1
          simp at h1
        | some d0 =>
          rw [hl0] at h1
          simp at h1
          rw [← h1]
          exact foldStudents_scores t inp.recognized s id d0 hl0
      rw [← hlook]
      simp [hsc]

/-- Witness for the amended C5: with Alice's record on file and a frame
whose face is detected but whose pose solve fails, her stored sample
list gains exactly the zero sample. -/
theorem attention_sample_recording_witness :
    ({ name := "Alice", first_seen := 0, last_seen := 0, hand_raises := 0,
       looking_away_count := 0, attention_scores := [0],
       total_frames := 1 } : StudentData).attention_scores
    = storedScores
        { active_students :=
            [("A",
              { name := "Alice", first_seen := 0, last_seen := 0, hand_raises := 0,
                looking_away_count := 0, attention_scores := [], total_frames := 1 })],
          attendance_marked := ["A"],
          hand_detector := detInit,
          face_movement_detector := detInit,
          session_start := some 0 } "A" ++ [0] :=
  (attention_sample_recording
    { active_students :=
        [("A",
          { name := "Alice", first_seen := 0, last_seen := 0, hand_raises := 0,
            looking_away_count := 0, attention_scores := [], total_frames := 1 })],
      attendance_marked := ["A"],
      hand_detector := detInit,
      face_movement_detector := detInit,
      session_start := some 0 }
    { recognized := [], hands_detected := false, hand_raised := false,
      face_detected := true, head_pose := none } 1).2 rfl rfl "A" _
    (by simp [process_frame, updateStudentsAndAttendance, processStudent,
      applyHand, applyFace, update_hand_raise_count, update_looking_away_count,
      detStep, detect_face_movement, detInit, handParams, awayParams, cooldownOk,
      lookupStudent, setStudent, mapStudents])

/-- The attendance bookkeeping done by the recognition loop of one
frame relative to a base ledger `M`: emitted ids are distinct, each is
added to the ledger, the ledger only grows, and nothing already in `M`
is emitted. -/
theorem foldStudents_attendance (t : ℚ) (M : List String) :
    ∀ (rec : List RecognizedStudent) (acc : SysState × List String),
      acc.2.Nodup →
      (∀ e ∈ acc.2, e ∈ acc.1.attendance_marked) →
      (∀ x ∈ M, x ∈ acc.1.attendance_marked) →
      (∀ e ∈ acc.2, e ∉ M) →
      (rec.foldl (processStudent t) acc).2.Nodup ∧
      (∀ e ∈ (rec.foldl (processStudent t) acc).2,
        e ∈ (rec.foldl (processStudent t) acc).1.attendance_marked) ∧
      (∀ x ∈ M, x ∈ (rec.foldl (processStudent t) acc).1.attendance_marked) ∧
      (∀ e ∈ (rec.foldl (processStudent t) acc).2, e ∉ M) := by
  intro rec
  induction rec with
  | nil =>
    intro acc h1 h2 h3 h4
    exact ⟨h1, h2, h3, h4⟩
  | cons stu rest ih =>
    intro acc h1 h2 h3 h4
    rw [List.foldl_cons]
    apply ih
    · rcases hstu : stu.student_id with _ | sid
      · simpa [processStudent, hstu] using h1
      · simp only [processStudent, hstu]
        split
        · exact h1
        · refine List.Nodup.append h1 (List.nodup_singleton sid) ?_
          intro a ha hb
          simp at hb
          subst hb
          rename_i hnotin
          exact hnotin (h2 a ha)
    · rcases hstu : stu.student_id with _ | sid
      · simpa [processStudent, hstu] using h2
      · simp only [processStudent, hstu]
        split
        · exact h2
        · intro e he
          rcases List.mem_append.mp he with h | h
          · exact List.mem_cons_of_mem sid (h2 e h)
          · simp at h
            subst h
            exact List.mem_cons_self _ _
    · rcases hstu : stu.student_id with _ | sid
      · simpa [processStudent, hstu] using h3
      · simp only [processStudent, hstu]
        split
        · exact h3
        · exact fun x hx => List.mem_cons_of_mem sid (h3 x hx)
    · rcases hstu : stu.student_id with _ | sid
      · simpa [processStudent, hstu] using h4
      · simp only [processStudent, hstu]
        split
        · exact h4
        · intro e he
          rcases List.mem_append.mp he with h | h
          · exact h4 e h
          · simp at h
            subst h
            rename_i hnotin
            exact fun hM => hnotin (h3 e hM)

/-- Attendance bookkeeping of one whole `_process_frame` call: the ids
sent to `mark_attendance` are distinct, none was already in the ledger,
each enters the ledger, and the ledger only grows. -/
theorem process_frame_attendance (s : SysState) (inp : FrameInput) (t : ℚ) :
    (process_frame s inp t).2.attendance_events.Nodup ∧
    (∀ e ∈ (process_frame s inp t).2.attendance_events,
      e ∈ (process_frame s inp t).1.attendance_marked ∧
      e ∉ s.attendance_marked) ∧
    (∀ x ∈ s.attendance_marked, x ∈ (process_frame s inp t).1.attendance_marked) := by
  obtain ⟨hnd, hin, hmono, hdisj⟩ :=
    foldStudents_attendance t s.attendance_marked inp.recognized (s, [])
      List.nodup_nil (by simp) (fun x hx => hx) (by simp)
  have hm1 : (process_frame s inp t).1.attendance_marked
      = (updateStudentsAndAttendance s inp.recognized t).1.attendance_marked := by
    show (applyFace (applyHand (updateStudentsAndAttendance s inp.recognized t).1
      inp.hands_detected inp.hand_raised t).1 inp.face_detected inp.head_pose t).1.attendance_marked
      = _
    rw [(applyFace_preserves _ _ _ _).2.1, (applyHand_preserves _ _ _ _).2.1]
  have hev : (process_frame s inp t).2.attendance_events
      = (updateStudentsAndAttendance s inp.recognized t).2 := rfl
  refine ⟨by rw [hev]; exact hnd, fun e he => ?_, fun x hx => ?_⟩
  · rw [hev] at he
    exact ⟨by rw [hm1]; exact hin e he, hdisj e he⟩
  · rw [hm1]
    exact hmono x hx

theorem sysRun_cons (s : SysState) (f : FrameInput × ℚ)
    (fs : List (FrameInput × ℚ)) :
    sysRun s (f :: fs) =
      ((sysRun (process_frame s f.1 f.2).1 fs).1,
        (process_frame s f.1 f.2).2.attendance_events
          ++ (sysRun (process_frame s f.1 f.2).1 fs).2) := rfl

/-- Over a whole monitoring run, attendance side effects are pairwise
distinct, avoid the starting ledger, and each lands in the final
ledger. -/
theorem sysRun_attendance :
    ∀ (frames : List (FrameInput × ℚ)) (s : SysState),
      (sysRun s frames).2.Nodup ∧
      (∀ e ∈ (sysRun s frames).2,
        e ∈ (sysRun s frames).1.attendance_marked ∧ e ∉ s.attendance_marked) ∧
      (∀ x ∈ s.attendance_marked, x ∈ (sysRun s frames).1.attendance_marked) := by
  intro frames
  induction frames with
  | nil =>
    intro s
    exact ⟨List.nodup_nil, by simp [sysRun], fun x hx => hx⟩
  | cons f fs ih =>
    intro s
    obtain ⟨hnd1, hin1, hmono1⟩ := process_frame_attendance s f.1 f.2
    obtain ⟨hnd2, hin2, hmono2⟩ := ih (process_frame s f.1 f.2).1
    rw [sysRun_cons]
    refine ⟨?_, fun e he => ?_, fun x hx => ?_⟩
    · refine List.Nodup.append hnd1 hnd2 ?_
      intro a ha hb
      exact (hin2 a hb).2 (hin1 a ha).1
    · rcases List.mem_append.mp he with h | h
      · exact ⟨hmono2 e (hin1 e h).1, (hin1 e h).2⟩
      · exact ⟨(hin2 e h).1, fun hmem => (hin2 e h).2 (hmono1 e hmem)⟩
    · exact hmono2 x (hmono1 x hx)

/-- C8: over any session (every sequence of frames processed from a
freshly started state), the ids passed to `mark_attendance` are pairwise
distinct — each identity is marked at most once no matter how many
frames re-identify it — and every marked identity is in the final
attendance ledger (so no later frame can emit it again). -/
theorem attendance_marked_once (t0 : ℚ) (frames : List (FrameInput × ℚ)) :
    (sysRun (startSession initSysState t0) frames).2.Nodup ∧
    ∀ id ∈ (sysRun (startSession initSysState t0) frames).2,
      id ∈ (sysRun (startSession initSysState t0) frames).1.attendance_marked := by
  obtain ⟨hnd, hin, _⟩ := sysRun_attendance frames (startSession initSysState t0)
  exact ⟨hnd, fun id hid => (hin id hid).1⟩

/-- Witness for C8: two frames both recognizing Alice; the run emits the
single attendance event `"A"`, and it is in the final ledger. -/
theorem attendance_marked_once_witness :
    "A" ∈ (sysRun (startSession initSysState 0)
      [({ recognized := [{ student_id := some "A", name := "Alice" }],
          hands_detected := false, hand_raised := false,
          face_detected := false, head_pose := none }, 0),
       ({ recognized := [{ student_id := some "A", name := "Alice" }],
          hands_detected := false, hand_raised := false,
          face_detected := false, head_pose := none }, 2)]).1.attendance_marked :=
  (attendance_marked_once 0
    [({ recognized := [{ student_id := some "A", name := "Alice" }],
        hands_detected := false, hand_raised := false,
        face_detected := false, head_pose := none }, 0),
     ({ recognized := [{ student_id := some "A", name := "Alice" }],
        hands_detected := false, hand_raised := false,
        face_detected := false, head_pose := none }, 2)]).2 "A"
    (by simp [sysRun, process_frame, updateStudentsAndAttendance, processStudent,
      applyHand, applyFace, detect_face_movement, detInit, initSysState,
      startSession, lookupStudent, setStudent, mapStudents])

theorem lookupStudent_mem :
    ∀ (l : List (String × StudentData)) (id : String) (d : StudentData),
      lookupStudent l id = some d → (id, d) ∈ l := by
  intro l
  induction l with
  | nil =>
    intro id d h
    simp [lookupStudent] at h
  | cons p l ih =>
    intro id d h
    by_cases hp : p.1 = id
    · simp only [lookupStudent, hp, if_pos, Option.some.injEq] at h
      have hpd : (id, d) = p := by
        rcases p with ⟨k, v⟩
        simp only at hp h
        rw [hp, h]
      rw [hpd]
      exact List.mem_cons_self p l
    · simp only [lookupStudent] at h
      rw [if_neg hp] at h
      exact List.mem_cons_of_mem p (ih id d h)

theorem mem_setStudent :
    ∀ (l : List (String × StudentData)) (id : String) (d : StudentData) (q),
      q ∈ setStudent l id d → q = (id, d) ∨ q ∈ l := by
  intro l
  induction l with
  | nil =>
    intro id d q hq
    simp [setStudent] at hq
    exact Or.inl hq
  | cons p l ih =>
    intro id d q hq
    by_cases hp : p.1 = id
    · simp only [setStudent, hp, if_pos, List.mem_cons] at hq
      rcases hq with h | h
      · exact Or.inl h
      · exact Or.inr (List.mem_cons_of_mem p h)
    · simp only [setStudent] at hq
      rw [if_neg hp] at hq
      rcases List.mem_cons.mp hq with h | h
      · exact Or.inr (by simp [h])
      · rcases ih id d q h with h2 | h2
        · exact Or.inl h2
        · exact Or.inr (List.mem_cons_of_mem p h2)

/-- Section 1 keeps `first_seen ≤ last_seen ≤ t` for every record: new
records get both stamps equal to `t`, re-seen records get
`last_seen = t`, others are untouched. -/
theorem processStudent_seen (t : ℚ) (acc : SysState × List String)
    (stu : RecognizedStudent)
    (h : ∀ p ∈ acc.1.active_students,
      p.2.first_seen ≤ p.2.last_seen ∧ p.2.last_seen ≤ t) :
    ∀ p ∈ (processStudent t acc stu).1.active_students,
      p.2.first_seen ≤ p.2.last_seen ∧ p.2.last_seen ≤ t := by
  rcases hstu : stu.student_id with _ | sid
  · simpa [processStudent, hstu] using h
  · simp only [processStudent, hstu]
    have key : ∀ q ∈ setStudent acc.1.active_students sid
        { (match lookupStudent acc.1.active_students sid with
           | some d => d
           | none =>
             { name := stu.name, first_seen := t, last_seen := t, hand_raises := 0,
               looking_away_count := 0, attention_scores := [], total_frames := 0 }) with
          last_seen := t,
          total_frames :=
            (match lookupStudent acc.1.active_students sid with
             | some d => d
             | none =>
               { name := stu.name, first_seen := t, last_seen := t, hand_raises := 0,
                 looking_away_count := 0, attention_scores := [],
                 total_frames := 0 }).total_frames + 1 },
        q.2.first_seen ≤ q.2.last_seen ∧ q.2.last_seen ≤ t := by
      intro q hq
      rcases mem_setStudent _ _ _ q hq with h1 | h1
      · rw [h1]
        cases hd0 : lookupStudent acc.1.active_students sid with
        | none => simp [hd0]
        | some d =>
          simp only [hd0]
          have hd := h (sid, d) (lookupStudent_mem _ _ _ hd0)
          exact ⟨le_trans hd.1 hd.2, le_refl t⟩
      · exact h q h1
    split
    · exact key
    · exact key

theorem foldStudents_seen (t : ℚ) :
    ∀ (rec : List RecognizedStudent) (acc : SysState × List String),
      (∀ p ∈ acc.1.active_students,
        p.2.first_seen ≤ p.2.last_seen ∧ p.2.last_seen ≤ t) →
      ∀ p ∈ (rec.foldl (processStudent t) acc).1.active_students,
        p.2.first_seen ≤ p.2.last_seen ∧ p.2.last_seen ≤ t := by
  intro rec
  induction rec with
  | nil => intro acc h; exact h
  | cons stu rest ih =>
    intro acc h
    rw [List.foldl_cons]
    exact ih (processStudent t acc stu) (processStudent_seen t acc stu h)

/-- `mapStudents` with a timestamp-preserving function preserves any
property of the `first_seen`/`last_seen` stamps. -/
theorem mapStudents_seen (f : StudentData → StudentData)
    (hf : ∀ d, (f d).first_seen = d.first_seen ∧ (f d).last_seen = d.last_seen)
    (l : List (String × StudentData)) (P : ℚ → ℚ → Prop)
    (h : ∀ p ∈ l, P p.2.first_seen p.2.last_seen) :
    ∀ p ∈ mapStudents f l, P p.2.first_seen p.2.last_seen := by
  intro q hq
  simp only [mapStudents, List.mem_map] at hq
  obtain ⟨p, hp, hqe⟩ := hq
  rw [← hqe]
  show P (f p.2).first_seen (f p.2).last_seen
  rw [(hf p.2).1, (hf p.2).2]
  exact h p hp

theorem applyHand_seen (s : SysState) (hd hr : Bool) (t : ℚ)
    (P : ℚ → ℚ → Prop)
    (h : ∀ p ∈ s.active_students, P p.2.first_seen p.2.last_seen) :
    ∀ p ∈ (applyHand s hd hr t).1.active_students,
      P p.2.first_seen p.2.last_seen := by
  cases hd with
  | false => simpa [applyHand] using h
  | true =>
    cases hr with
    | false => simpa [applyHand] using h
    | true =>
      by_cases hc : (update_hand_raise_count s.hand_detector true t).2 = true
      · simp only [applyHand, hc, if_true]
        apply mapStudents_seen
        · exact fun d => ⟨rfl, rfl⟩
        · exact h
      · simpa [applyHand, hc] using h

theorem applyFace_seen (s : SysState) (fdet : Bool) (hp : Option (ℚ × ℚ))
    (t : ℚ) (P : ℚ → ℚ → Prop)
    (h : ∀ p ∈ s.active_students, P p.2.first_seen p.2.last_seen) :
    ∀ p ∈ (applyFace s fdet hp t).1.active_students,
      P p.2.first_seen p.2.last_seen := by
  cases hfd : (detect_face_movement fdet hp).face_detected with
  | false => simpa [applyFace, hfd] using h
  | true =>
    cases hla : (detect_face_movement fdet hp).looking_away with
    | false =>
      simp only [applyFace, hfd, hla, Bool.false_eq_true, if_true, if_false]
      apply mapStudents_seen
      · exact fun d => ⟨rfl, rfl⟩
      · exact h
    | true =>
      simp only [applyFace, hfd, hla, if_true]
      split
      · intro q hq
        exact mapStudents_seen
          (fun d => { d with looking_away_count := d.looking_away_count + 1 })
          (fun d => ⟨rfl, rfl⟩) _ P
          (mapStudents_seen
            (fun d =>
              { d with attention_scores :=
                  d.attention_scores ++ [(detect_face_movement fdet hp).attention_score] })
            (fun d => ⟨rfl, rfl⟩) _ P h) q hq
      · intro q hq
        exact mapStudents_seen
          (fun d =>
            { d with attention_scores :=
                d.attention_scores ++ [(detect_face_movement fdet hp).attention_score] })
          (fun d => ⟨rfl, rfl⟩) _ P h q hq

/-- One frame at time `t` keeps every record's stamps consistent and
bounded by `t`. -/
theorem process_frame_seen (s : SysState) (inp : FrameInput) (t : ℚ)
    (h : ∀ p ∈ s.active_students,
      p.2.first_seen ≤ p.2.last_seen ∧ p.2.last_seen ≤ t) :
    ∀ p ∈ (process_frame s inp t).1.active_students,
      p.2.first_seen ≤ p.2.last_seen ∧ p.2.last_seen ≤ t := by
  have h1 := foldStudents_seen t inp.recognized (s, []) h
  have h2 := applyHand_seen (updateStudentsAndAttendance s inp.recognized t).1
    inp.hands_detected inp.hand_raised t
    (fun a b => a ≤ b ∧ b ≤ t) h1
  exact applyFace_seen _ inp.face_detected inp.head_pose t
    (fun a b => a ≤ b ∧ b ≤ t) h2

/-- Along a run with nondecreasing frame times, every record keeps
`first_seen ≤ last_seen`. -/
theorem sysRun_seen :
    ∀ (frames : List (FrameInput × ℚ)) (s : SysState),
      frames.Pairwise (fun a b => a.2 ≤ b.2) →
      (∀ p ∈ s.active_students, p.2.first_seen ≤ p.2.last_seen) →
      (∀ f ∈ frames, ∀ p ∈ s.active_students, p.2.last_seen ≤ f.2) →
      ∀ p ∈ (sysRun s frames).1.active_students,
        p.2.first_seen ≤ p.2.last_seen := by
  intro frames
  induction frames with
  | nil => intro s _ h _; exact h
  | cons f fs ih =>
    intro s hpw h1 h2
    rw [sysRun_cons]
    have hb : ∀ p ∈ s.active_students,
        p.2.first_seen ≤ p.2.last_seen ∧ p.2.last_seen ≤ f.2 :=
      fun p hpm => ⟨h1 p hpm, h2 f (List.mem_cons_self f fs) p hpm⟩
    have hs1 := process_frame_seen s f.1 f.2 hb
    exact ih (process_frame s f.1 f.2).1 (List.pairwise_cons.mp hpw).2
      (fun p hpm => (hs1 p hpm).1)
      (fun g hg p hpm =>
        le_trans (hs1 p hpm).2 ((List.pairwise_cons.mp hpw).1 g hg))

theorem process_frame_session (s : SysState) (inp : FrameInput) (t : ℚ) :
    (process_frame s inp t).1.session_start = s.session_start := by
  show (applyFace (applyHand (updateStudentsAndAttendance s inp.recognized t).1
    inp.hands_detected inp.hand_raised t).1 inp.face_detected inp.head_pose t).1.session_start
    = _
  rw [(applyFace_preserves _ _ _ _).2.2, (applyHand_preserves _ _ _ _).2.2]
  exact (foldStudents_preserves t inp.recognized (s, [])).2.2

theorem sysRun_session :
    ∀ (frames : List (FrameInput × ℚ)) (s : SysState),
      (sysRun s frames).1.session_start = s.session_start := by
  intro frames
  induction frames with
  | nil => intro s; rfl
  | cons f fs ih =>
    intro s
    rw [sysRun_cons]
    rw [ih (process_frame s f.1 f.2).1, process_frame_session]

/-- Truncation toward zero of a non-negative rational is non-negative. -/
theorem pyInt_nonneg (q : ℚ) (h : 0 ≤ q) : 0 ≤ pyInt q :=
  Int.tdiv_nonneg (Rat.num_nonneg.mpr h) (Int.ofNat_nonneg q.den)

/-- The session state after starting at time `t0` and processing
`frames`. -/
def finalState (t0 : ℚ) (frames : List (FrameInput × ℚ)) : SysState :=
  (sysRun (startSession initSysState t0) frames).1

/-- C9: at session termination after any run with nondecreasing frame
times, `_save_session_report` emits exactly one `log_behavior` row per
stored entity record; each row carries that record's id, the arithmetic
mean of its `attention_scores` (`0` for an empty list), and a duration
equal to `last_seen - first_seen` truncated to whole seconds, which is
non-negative; with zero records the report cleanly emits nothing. -/
theorem session_report_per_student (t0 : ℚ) (frames : List (FrameInput × ℚ))
    (hmono : frames.Pairwise (fun a b => a.2 ≤ b.2)) :
    (save_session_report (finalState t0 frames)).length
      = (finalState t0 frames).active_students.length ∧
    List.Forall₂
      (fun (entry : BehaviorLogEntry) (p : String × StudentData) =>
        entry.student_id = p.1 ∧
        entry.attention_score =
          (if p.2.attention_scores = [] then 0
           else p.2.attention_scores.sum / p.2.attention_scores.length) ∧
        entry.total_duration = pyInt (p.2.last_seen - p.2.first_seen) ∧
        0 ≤ entry.total_duration)
      (save_session_report (finalState t0 frames))
      (finalState t0 frames).active_students ∧
    ((finalState t0 frames).active_students = [] →
      save_session_report (finalState t0 frames) = []) := by
  have hss : (finalState t0 frames).session_start = some t0 := by
    rw [finalState, sysRun_session]
    rfl
  have hrep : save_session_report (finalState t0 frames)
      = (finalState t0 frames).active_students.map
          (fun p =>
            { student_id := p.1
              attention_score :=
                if p.2.attention_scores = [] then 0
                else p.2.attention_scores.sum / p.2.attention_scores.length
              hand_raises := p.2.hand_raises
              looking_away_count := p.2.looking_away_count
              total_duration := pyInt (p.2.last_seen - p.2.first_seen) }) := by
    simp only [save_session_report, hss]
  have hok : ∀ p ∈ (finalState t0 frames).active_students,
      p.2.first_seen ≤ p.2.last_seen := by
    rw [finalState]
    apply sysRun_seen frames (startSession initSysState t0) hmono
    · intro p hp
      simp [startSession, initSysState] at hp
    · intro f hf p hp
      simp [startSession, initSysState] at hp
  refine ⟨by rw [hrep, List.length_map], ?_, fun h => by rw [hrep, h]; rfl⟩
  rw [hrep, List.forall₂_map_left_iff, List.forall₂_same]
  intro p hp
  exact ⟨rfl, rfl, rfl, pyInt_nonneg _ (sub_nonneg.mpr (hok p hp))⟩

/-- Witness for C9: a concrete two-frame session observing Alice at
times 0 and 2 — the report has one row per record and each row satisfies
the mean/duration contract. -/
theorem session_report_per_student_witness :
    (save_session_report (finalState 0
      [({ recognized := [{ student_id := some "A", name := "Alice" }],
          hands_detected := false, hand_raised := false,
          face_detected := false, head_pose := none }, 0),
       ({ recognized := [{ student_id := some "A", name := "Alice" }],
          hands_detected := false, hand_raised := false,
          face_detected := false, head_pose := none }, 2)])).length
      = (finalState 0
      [({ recognized := [{ student_id := some "A", name := "Alice" }],
          hands_detected := false, hand_raised := false,
          face_detected := false, head_pose := none }, 0),
       ({ recognized := [{ student_id := some "A", name := "Alice" }],
          hands_detected := false, hand_raised := false,
          face_detected := false, head_pose := none }, 2)]).active_students.length ∧
    List.Forall₂
      (fun (entry : BehaviorLogEntry) (p : String × StudentData) =>
        entry.student_id = p.1 ∧
        entry.attention_score =
          (if p.2.attention_scores = [] then 0
           else p.2.attention_scores.sum / p.2.attention_scores.length) ∧
        entry.total_duration = pyInt (p.2.last_seen - p.2.first_seen) ∧
        0 ≤ entry.total_duration)
      (save_session_report (finalState 0
        [({ recognized := [{ student_id := some "A", name := "Alice" }],
            hands_detected := false, hand_raised := false,
            face_detected := false, head_pose := none }, 0),
         ({ recognized := [{ student_id := some "A", name := "Alice" }],
            hands_detected := false, hand_raised := false,
            face_detected := false, head_pose := none }, 2)]))
      (finalState 0
        [({ recognized := [{ student_id := some "A", name := "Alice" }],
            hands_detected := false, hand_raised := false,
            face_detected := false, head_pose := none }, 0),
         ({ recognized := [{ student_id := some "A", name := "Alice" }],
            hands_detected := false, hand_raised := false,
            face_detected := false, head_pose := none }, 2)]).active_students :=
  ⟨(session_report_per_student 0 _ (by norm_num)).1,
   (session_report_per_student 0 _ (by norm_num)).2.1⟩

/-- C10: `_reset_statistics` zeroes `hand_raises` and
`looking_away_count` and empties `attention_scores` on every existing
record, resets both detectors' counts and debounce state via
`reset_count`, and leaves each record's key, name, `first_seen`,
`last_seen` and `total_frames`, the attendance ledger, and the session
start time unchanged; no record is created or removed (the key sequence
is identical). -/
theorem reset_statistics_spec (s : SysState) :
    (reset_statistics s).active_students.map Prod.fst
      = s.active_students.map Prod.fst ∧
    List.Forall₂
      (fun (q p : String × StudentData) =>
        q.1 = p.1 ∧
        q.2.hand_raises = 0 ∧
        q.2.looking_away_count = 0 ∧
        q.2.attention_scores = [] ∧
        q.2.name = p.2.name ∧
        q.2.first_seen = p.2.first_seen ∧
        q.2.last_seen = p.2.last_seen ∧
        q.2.total_frames = p.2.total_frames)
      (reset_statistics s).active_students s.active_students ∧
    (reset_statistics s).attendance_marked = s.attendance_marked ∧
    (reset_statistics s).session_start = s.session_start ∧
    (reset_statistics s).hand_detector = reset_count s.hand_detector ∧
    (reset_statistics s).face_movement_detector = reset_count s.face_movement_detector ∧
    (reset_statistics s).hand_detector.count = 0 ∧
    (reset_statistics s).hand_detector.raw_active = false ∧
    (reset_statistics s).hand_detector.episode_start = none ∧
    (reset_statistics s).hand_detector.last_confirmed = none ∧
    (reset_statistics s).face_movement_detector.count = 0 ∧
    (reset_statistics s).face_movement_detector.raw_active = false ∧
    (reset_statistics s).face_movement_detector.episode_start = none ∧
    (reset_statistics s).face_movement_detector.last_confirmed = none := by
  refine ⟨?_, ?_, rfl, rfl, rfl, rfl, rfl, rfl, rfl, rfl, rfl, rfl, rfl, rfl⟩
  · simp [reset_statistics, mapStudents, Function.comp]
  · show List.Forall₂ _
      (mapStudents
        (fun d =>
          { d with hand_raises := 0, looking_away_count := 0,
                   attention_scores := [] })
        s.active_students) s.active_students
    rw [mapStudents, List.forall₂_map_left_iff, List.forall₂_same]
    intro p hp
    exact ⟨rfl, rfl, rfl, rfl, rfl, rfl, rfl, rfl⟩

/-- Witness for C7: a face turned 30° away with level pitch is
classified as looking away, with attention score (40 + 100) / 2 = 70. -/
theorem attention_scorer_spec_witness :
    (detect_face_movement true (some (30, 0))).looking_away = true ∧
    (detect_face_movement true (some (30, 0))).attention_score = 70 := by
  constructor
  · exact (attention_scorer_spec 30 0).1.mpr (Or.inl (by norm_num))
  · rw [(attention_scorer_spec 30 0).2.1]
    norm_num
